import Mathlib

/-!
Shallow embedding of the job-application form component in `src/src/App.tsx`
of the `exactdatainput.uk/form` repository, together with proofs of the
specified properties of its validation, file handling and submit workflow.

The component's state hooks become fields of an explicit `AppState`; the
event handlers become pure functions from state (and event payload) to
state; the submit handler additionally returns the list of network calls it
issued and the navigation it performed. Sources of nondeterminism that the
browser supplies (the `Math.random()` draw, the outcome of the remote API
call, `JSON.parse`) are passed in explicitly through `SubmitEnv`.
-/

/-- The `formData` state object of the component: a flat record of the
fifteen string-valued form fields. -/
structure FormData where
  firstName : String
  lastName : String
  email : String
  over18 : String
  dataEntryExperience : String
  experienceDescription : String
  accessibility : String
  hoursPerWeek : String
  hasComputer : String
  rightToWork : String
  criminalConvictions : String
  dbsCheck : String
  englishFluency : String
  otherLanguages : String
  selfDescription : String
deriving DecidableEq, Repr

/-- The names of the form fields, used to index `FormData` the way the
dynamic `[name]: value` update in `handleInputChange` does. -/
inductive FieldName where
  | firstName | lastName | email | over18 | dataEntryExperience
  | experienceDescription | accessibility | hoursPerWeek | hasComputer
  | rightToWork | criminalConvictions | dbsCheck | englishFluency
  | otherLanguages | selfDescription
deriving DecidableEq, Repr

/-- Read the field named `f` from the form data (`formData[f]`). -/
def getField (fd : FormData) : FieldName → String
  | FieldName.firstName => fd.firstName
  | FieldName.lastName => fd.lastName
  | FieldName.email => fd.email
  | FieldName.over18 => fd.over18
  | FieldName.dataEntryExperience => fd.dataEntryExperience
  | FieldName.experienceDescription => fd.experienceDescription
  | FieldName.accessibility => fd.accessibility
  | FieldName.hoursPerWeek => fd.hoursPerWeek
  | FieldName.hasComputer => fd.hasComputer
  | FieldName.rightToWork => fd.rightToWork
  | FieldName.criminalConvictions => fd.criminalConvictions
  | FieldName.dbsCheck => fd.dbsCheck
  | FieldName.englishFluency => fd.englishFluency
  | FieldName.otherLanguages => fd.otherLanguages
  | FieldName.selfDescription => fd.selfDescription

/-- Functional update of a single named field (`{ ...prev, [name]: value }`). -/
def setField (fd : FormData) : FieldName → String → FormData
  | FieldName.firstName, v => { fd with firstName := v }
  | FieldName.lastName, v => { fd with lastName := v }
  | FieldName.email, v => { fd with email := v }
  | FieldName.over18, v => { fd with over18 := v }
  | FieldName.dataEntryExperience, v => { fd with dataEntryExperience := v }
  | FieldName.experienceDescription, v => { fd with experienceDescription := v }
  | FieldName.accessibility, v => { fd with accessibility := v }
  | FieldName.hoursPerWeek, v => { fd with hoursPerWeek := v }
  | FieldName.hasComputer, v => { fd with hasComputer := v }
  | FieldName.rightToWork, v => { fd with rightToWork := v }
  | FieldName.criminalConvictions, v => { fd with criminalConvictions := v }
  | FieldName.dbsCheck, v => { fd with dbsCheck := v }
  | FieldName.englishFluency, v => { fd with englishFluency := v }
  | FieldName.otherLanguages, v => { fd with otherLanguages := v }
  | FieldName.selfDescription, v => { fd with selfDescription := v }

/-- A browser `File` object, restricted to the properties the component
reads: its name and its size in bytes. -/
structure JSFile where
  name : String
  size : Nat
deriving DecidableEq, Repr

/-- The component's full state: the `useState` hooks `formData`,
`isSubmitting`, `error`, `uploadedFile` and `isDragging`. -/
structure AppState where
  formData : FormData
  isSubmitting : Bool
  error : Option String
  uploadedFile : Option JSFile
  isDragging : Bool
deriving DecidableEq, Repr

/-- The decimal digits of a natural number as characters, most significant
first; embeds JavaScript `Number.prototype.toString()` on the naturals
produced by `Math.floor(Math.random() * 100000)`. -/
def natDigits (n : Nat) : List Char :=
  if h : n < 10 then [Char.ofNat (48 + n)]
  else natDigits (n / 10) ++ [Char.ofNat (48 + n % 10)]
decreasing_by exact Nat.div_lt_self (by omega) (by omega)

/-- JavaScript `num.toString()` for a natural number. -/
def jsNumToString (n : Nat) : String :=
  String.mk (natDigits n)

/-- JavaScript `String.prototype.padStart(len, c)`: left-pad with `c` up to
length `len` (no-op on strings already that long). -/
def padStart (s : String) (len : Nat) (c : Char) : String :=
  String.mk (List.replicate (len - s.data.length) c) ++ s

/-- `generateReferenceNumber` from `App.tsx`, with the result of
`Math.floor(Math.random() * 100000)` passed in as `draw`:
`EDI` followed by the draw zero-padded to five digits. -/
def generateReferenceNumber (draw : Nat) : String :=
  "EDI" ++ padStart (jsNumToString draw) 5 (Char.ofNat 48)

/-- The `amountMap` object literal of `getAmountFromHours`, as an
association list from hours string to display amount. -/
def amountMap : List (String × String) :=
  [("10", "£165"), ("20", "£330"), ("30", "£495"), ("40", "£660"), ("50", "£825")]

/-- `getAmountFromHours` from `App.tsx`: `amountMap[hours] || ''`. -/
def getAmountFromHours (hours : String) : String :=
  ((amountMap.lookup hours).getD "")

/-- The fixed `requiredFields` list of `validateForm`, read off `fd` in the
order the source lists the field names. -/
def requiredValues (fd : FormData) : List String :=
  [fd.firstName, fd.lastName, fd.email, fd.over18, fd.dataEntryExperience,
   fd.accessibility, fd.hoursPerWeek, fd.hasComputer, fd.rightToWork,
   fd.criminalConvictions, fd.dbsCheck, fd.englishFluency, fd.selfDescription]

/-- `validateForm` from `App.tsx`: first the email must contain `@`, then
every required field must be non-empty (`!formData[field]` is true exactly
on the empty string). A thrown `Error` becomes `Except.error` carrying its
message. -/
def validateForm (fd : FormData) : Except String Unit :=
  if !(fd.email.data.contains '@') then
    Except.error "Please enter a valid email address"
  else if ((requiredValues fd).filter (fun v => v == "")).length > 0 then
    Except.error "Please fill in all required fields"
  else
    Except.ok ()

/-- `handleInputChange` from `App.tsx`: merge the single changed field into
`formData` and clear the error banner. -/
def handleInputChange (st : AppState) (f : FieldName) (v : String) : AppState :=
  { st with formData := setField st.formData f v, error := none }

/-- JavaScript `String.prototype.split(sep)` restricted to a one-character
separator, on the character list of the string. -/
def splitOnChar (sep : Char) : List Char → List (List Char)
  | [] => [[]]
  | c :: cs =>
    let rest := splitOnChar sep cs
    if c = sep then [] :: rest
    else (c :: rest.headD []) :: rest.tail

/-- `file.name.toLowerCase().split('.').pop()` from `validateAndSetFile`,
with `toLowerCase` modelled by ASCII `Char.toLower` on each character
(the extensions compared against are ASCII). `pop()` on the never-empty
result of `split` is the last element. -/
def fileExt (name : String) : String :=
  String.mk ((splitOnChar (Char.ofNat 46) (name.data.map Char.toLower)).getLastD [])

/-- `validateAndSetFile` from `App.tsx`: reject files over 10 MB, then
reject extensions outside pdf/doc/docx, clearing any previously accepted
file on either rejection; otherwise store the file and clear the error. -/
def validateAndSetFile (st : AppState) (file : JSFile) : AppState :=
  if file.size > 10 * 1024 * 1024 then
    { st with error := some "File size must be less than 10MB", uploadedFile := none }
  else if !(fileExt file.name ∈ (["pdf", "doc", "docx"] : List String)) then
    { st with error := some "Only PDF, DOC, or DOCX files are allowed", uploadedFile := none }
  else
    { st with uploadedFile := some file, error := none }

/-- `handleFileChange` from `App.tsx`: validate the first picked file, if
any (`e.target.files?.[0]`). -/
def handleFileChange (st : AppState) (file : Option JSFile) : AppState :=
  match file with
  | some f => validateAndSetFile st f
  | none => st

/-- `handleDrop` from `App.tsx`: end the drag highlight, then validate the
first dropped file, if any, through the same `validateAndSetFile`. -/
def handleDrop (st : AppState) (file : Option JSFile) : AppState :=
  let st1 : AppState := { st with isDragging := false }
  match file with
  | some f => validateAndSetFile st1 f
  | none => st1

/-- One uppercase hexadecimal digit, as emitted by `encodeURIComponent`. -/
def hexDigitChar (n : Nat) : Char :=
  if n < 10 then Char.ofNat (48 + n) else Char.ofNat (55 + n)

/-- A percent-encoded byte `%XY`. -/
def percentByte (b : Nat) : List Char :=
  [Char.ofNat 37, hexDigitChar (b / 16), hexDigitChar (b % 16)]

/-- UTF-8 encoding of one scalar value, as the bytes `encodeURIComponent`
percent-encodes for a non-ASCII character. -/
def utf8Bytes (c : Char) : List Nat :=
  let n := c.toNat
  if n < 128 then [n]
  else if n < 2048 then [192 + n / 64, 128 + n % 64]
  else if n < 65536 then [224 + n / 4096, 128 + (n / 64) % 64, 128 + n % 64]
  else [240 + n / 262144, 128 + (n / 4096) % 64, 128 + (n / 64) % 64, 128 + n % 64]

/-- The characters `encodeURIComponent` leaves unescaped besides the
alphanumerics: `- _ . ! ~ * ' ( )`. -/
def uriMark (c : Char) : Bool :=
  c ∈ [Char.ofNat 45, Char.ofNat 95, Char.ofNat 46, Char.ofNat 33,
       Char.ofNat 126, Char.ofNat 42, Char.ofNat 39, Char.ofNat 40, Char.ofNat 41]

/-- JavaScript `encodeURIComponent`: alphanumerics and the unescaped marks
pass through, every other character is replaced by the percent-encoding of
its UTF-8 bytes. -/
def encodeURIComponent (s : String) : String :=
  String.mk (s.data.flatMap (fun c =>
    if c.isAlphanum || uriMark c then [c] else (utf8Bytes c).flatMap percentByte))

/-- The confirmation URL built on submit success:
`https://exactdatainput.uk/application-submitted?email=` followed by the
URL-encoded email. -/
def submittedUrl (email : String) : String :=
  "https://exactdatainput.uk/application-submitted?email=" ++ encodeURIComponent email

/-- The attribute object attached to the Brevo `CreateContact` payload. -/
structure ContactAttributes where
  FIRSTNAME : String
  LASTNAME : String
  HOURS : String
  AMOUNT : String
  UNIQUE : String
deriving DecidableEq, Repr

/-- The `CreateContact` payload sent to the remote contacts API. -/
structure CreateContact where
  email : String
  attributes : ContactAttributes
  listIds : List Nat
deriving DecidableEq, Repr

/-- Outcome of the awaited `apiInstance.createContact` call: success, or a
failure whose `response.text`, when the response carried one, is recorded
(`none` models a missing `response` or `text`, e.g. a connection error). -/
inductive ApiResult where
  | success : ApiResult
  | failure (responseText : Option String) : ApiResult
deriving DecidableEq, Repr

/-- The browser-supplied inputs of one run of `handleSubmit`: the value of
`Math.floor(Math.random() * 100000)`, the outcome of the remote call, and
`JSON.parse(·).message` applied to a failure response body. -/
structure SubmitEnv where
  draw : Nat
  apiResult : ApiResult
  parseMessage : String → String

/-- What one run of `handleSubmit` did: the state it left behind, the
createContact network calls it issued, and the URL it navigated to, if any. -/
structure SubmitOutcome where
  state : AppState
  networkCalls : List CreateContact
  navigation : Option String

/-- The generic connectivity message shown when a failed remote call has no
usable response body. -/
def connectivityMessage : String :=
  "Unable to connect to the server. Please check your internet connection and try again."

/-- `handleSubmit` from `App.tsx` as a pure function of the state and the
browser environment. Mirrors the source: the `isSubmitting` guard returns
at once; otherwise the latch is set and the error cleared, validation may
throw (caught by the outer `catch`, which stores the message), a single
`createContact` call is issued, success navigates to the confirmation URL,
failure stores the parsed or generic message (the truthiness test
`apiError.response?.text ?` treats an empty body like a missing one), and
the `finally` block clears the latch on every path. -/
def handleSubmit (st : AppState) (env : SubmitEnv) : SubmitOutcome :=
  if st.isSubmitting then
    { state := st, networkCalls := [], navigation := none }
  else
    let st1 : AppState := { st with isSubmitting := true, error := none }
    match validateForm st.formData with
    | Except.error msg =>
      { state := { st1 with error := some msg, isSubmitting := false },
        networkCalls := [], navigation := none }
    | Except.ok _ =>
      let referenceNumber := generateReferenceNumber env.draw
      let createContact : CreateContact :=
        { email := st.formData.email,
          attributes :=
            { FIRSTNAME := st.formData.firstName,
              LASTNAME := st.formData.lastName,
              HOURS := st.formData.hoursPerWeek,
              AMOUNT := getAmountFromHours st.formData.hoursPerWeek,
              UNIQUE := referenceNumber },
          listIds := [7] }
      match env.apiResult with
      | ApiResult.success =>
        { state := { st1 with isSubmitting := false },
          networkCalls := [createContact],
          navigation := some (submittedUrl st.formData.email) }
      | ApiResult.failure responseText =>
        let errorMessage :=
          match responseText with
          | some t => if t = "" then connectivityMessage else env.parseMessage t
          | none => connectivityMessage
        { state := { st1 with error := some errorMessage, isSubmitting := false },
          networkCalls := [createContact], navigation := none }

theorem natDigits_length_pos (n : Nat) : 1 ≤ (natDigits n).length := by
  rw [natDigits]
  split <;> simp

theorem natDigits_length_le : ∀ k n : Nat, 1 ≤ k → n < 10 ^ k → (natDigits n).length ≤ k := by
  intro k
  induction k with
  | zero => intro n h; omega
  | succ k ih =>
    intro n _ hn
    rw [natDigits]
    split
    · simp
    · rename_i hge
      rcases Nat.eq_zero_or_pos k with hk | hk
      · subst hk; simp at hn; omega
      · have hdiv : n / 10 < 10 ^ k := by
          rw [Nat.div_lt_iff_lt_mul (by norm_num)]
          calc n < 10 ^ (k + 1) := hn
          _ = 10 ^ k * 10 := by ring
        have := ih (n / 10) hk hdiv
        simp only [List.length_append, List.length_cons, List.length_nil]
        omega

theorem natDigits_isDigit : ∀ n : Nat, ∀ c ∈ natDigits n, c.isDigit = true := by
  intro n
  induction n using Nat.strong_induction_on with
  | _ n ih =>
    intro c hc
    rw [natDigits] at hc
    split at hc
    · rename_i h
      simp only [List.mem_singleton] at hc
      subst hc
      interval_cases n <;> decide
    · rename_i h
      rw [List.mem_append, List.mem_singleton] at hc
      rcases hc with hc | hc
      · exact ih (n / 10) (Nat.div_lt_self (by omega) (by omega)) c hc
      · subst hc
        have h10 : n % 10 < 10 := Nat.mod_lt _ (by omega)
        revert h10
        generalize n % 10 = m
        intro h10
        interval_cases m <;> decide

/-- C4: the amount-derivation function maps the five known hours strings to
their amounts and every other string to the empty string. -/
theorem c4_amount_table (h : String) :
    getAmountFromHours h =
      if h = "10" then "£165"
      else if h = "20" then "£330"
      else if h = "30" then "£495"
      else if h = "40" then "£660"
      else if h = "50" then "£825"
      else "" := by
  by_cases h10 : h = "10"
  · subst h10; rfl
  by_cases h20 : h = "20"
  · subst h20; rfl
  by_cases h30 : h = "30"
  · subst h30; rfl
  by_cases h40 : h = "40"
  · subst h40; rfl
  by_cases h50 : h = "50"
  · subst h50; rfl
  have e10 : (h == "10") = false := beq_eq_false_iff_ne.mpr h10
  have e20 : (h == "20") = false := beq_eq_false_iff_ne.mpr h20
  have e30 : (h == "30") = false := beq_eq_false_iff_ne.mpr h30
  have e40 : (h == "40") = false := beq_eq_false_iff_ne.mpr h40
  have e50 : (h == "50") = false := beq_eq_false_iff_ne.mpr h50
  simp [getAmountFromHours, amountMap, List.lookup, h10, h20, h30, h40, h50,
    e10, e20, e30, e40, e50]

/-- C5: for every draw in [0, 100000), the generated reference code is the
prefix EDI followed by exactly five decimal digits. -/
theorem c5_reference_format (draw : Nat) (h : draw < 100000) :
    ∃ t : List Char, (generateReferenceNumber draw).data = ['E', 'D', 'I'] ++ t ∧
      t.length = 5 ∧ ∀ c ∈ t, c.isDigit = true := by
  have hle : (natDigits draw).length ≤ 5 :=
    natDigits_length_le 5 draw (by omega) (by norm_num; omega)
  have hpos : 1 ≤ (natDigits draw).length := natDigits_length_pos draw
  refine ⟨List.replicate (5 - (natDigits draw).length) (Char.ofNat 48) ++ natDigits draw,
    ?_, ?_, ?_⟩
  · simp [generateReferenceNumber, padStart, jsNumToString]
  · simp only [List.length_append, List.length_replicate]
    omega
  · intro c hc
    rw [List.mem_append] at hc
    rcases hc with hc | hc
    · have := List.eq_of_mem_replicate hc
      subst this
      decide
    · exact natDigits_isDigit draw c hc

theorem c5_reference_format_witness :
    42 < 100000 ∧
    ∃ t : List Char, (generateReferenceNumber 42).data = ['E', 'D', 'I'] ++ t ∧
      t.length = 5 ∧ ∀ c ∈ t, c.isDigit = true :=
  ⟨by decide, c5_reference_format 42 (by decide)⟩

/-- C1: a submission that passes validation issues exactly one
createContact call carrying the form's email, the name/hours/amount/
reference attributes and list id 7, and on API success navigates to the
confirmation URL with the email URL-encoded; with hours 20 the amount
attribute is £330. -/
theorem c1_valid_submission (st : AppState) (env : SubmitEnv)
    (hguard : st.isSubmitting = false)
    (hvalid : validateForm st.formData = Except.ok ())
    (hok : env.apiResult = ApiResult.success) :
    (handleSubmit st env).networkCalls =
      [{ email := st.formData.email,
         attributes :=
           { FIRSTNAME := st.formData.firstName,
             LASTNAME := st.formData.lastName,
             HOURS := st.formData.hoursPerWeek,
             AMOUNT := getAmountFromHours st.formData.hoursPerWeek,
             UNIQUE := generateReferenceNumber env.draw },
         listIds := [7] }] ∧
    (handleSubmit st env).navigation = some (submittedUrl st.formData.email) ∧
    (st.formData.hoursPerWeek = "20" →
      getAmountFromHours st.formData.hoursPerWeek = "£330") := by
  refine ⟨?_, ?_, ?_⟩
  · simp [handleSubmit, hguard, hvalid, hok]
  · simp [handleSubmit, hguard, hvalid, hok]
  · intro h20
    rw [h20]
    rfl

/-- C2: with a well-formed email but some required field empty, submit
stores the missing-required-fields validation message, issues no network
call, and leaves the form fields untouched. -/
theorem c2_missing_required (st : AppState) (env : SubmitEnv)
    (hguard : st.isSubmitting = false)
    (hat : st.formData.email.data.contains '@' = true)
    (hmiss : "" ∈ requiredValues st.formData) :
    (handleSubmit st env).state.error = some "Please fill in all required fields" ∧
    (handleSubmit st env).networkCalls = [] ∧
    (handleSubmit st env).state.formData = st.formData := by
  have hmem : "" ∈ (requiredValues st.formData).filter (fun v => v == "") :=
    List.mem_filter.mpr ⟨hmiss, by simp⟩
  have hlen : 0 < ((requiredValues st.formData).filter (fun v => v == "")).length :=
    List.length_pos.mpr (List.ne_nil_of_mem hmem)
  have hat2 : '@' ∈ st.formData.email.data := by simpa using hat
  have hv : validateForm st.formData = Except.error "Please fill in all required fields" := by
    simp [validateForm, hat2, hlen]
  refine ⟨?_, ?_, ?_⟩ <;> simp [handleSubmit, hguard, hv]

/-- C3: an email without the at sign makes submit store the invalid-email
message and issue no network call, whatever the other fields hold, so the
email check precedes the required-field check. -/
theorem c3_invalid_email (st : AppState) (env : SubmitEnv)
    (hguard : st.isSubmitting = false)
    (hat : st.formData.email.data.contains '@' = false) :
    (handleSubmit st env).state.error = some "Please enter a valid email address" ∧
    (handleSubmit st env).networkCalls = [] ∧
    (handleSubmit st env).state.formData = st.formData := by
  have hat2 : '@' ∉ st.formData.email.data := by simpa using hat
  have hv : validateForm st.formData = Except.error "Please enter a valid email address" := by
    simp [validateForm, hat2]
  refine ⟨?_, ?_, ?_⟩ <;> simp [handleSubmit, hguard, hv]

/-- C7: when the remote call fails, the stored error is the message parsed
from a non-empty response body and otherwise the generic connectivity
message; the latch ends cleared, exactly one call was issued, and no
navigation (hence no automatic retry) happens. -/
theorem c7_remote_failure (st : AppState) (env : SubmitEnv) (rt : Option String)
    (hguard : st.isSubmitting = false)
    (hvalid : validateForm st.formData = Except.ok ())
    (hfail : env.apiResult = ApiResult.failure rt) :
    (∀ t : String, rt = some t → t ≠ "" →
      (handleSubmit st env).state.error = some (env.parseMessage t)) ∧
    ((rt = none ∨ rt = some "") →
      (handleSubmit st env).state.error = some connectivityMessage) ∧
    (handleSubmit st env).state.isSubmitting = false ∧
    (handleSubmit st env).networkCalls.length = 1 ∧
    (handleSubmit st env).navigation = none := by
  refine ⟨?_, ?_, ?_, ?_, ?_⟩
  · intro t ht hne
    subst ht
    simp [handleSubmit, hguard, hvalid, hfail, hne]
  · rintro (ht | ht) <;> subst ht <;> simp [handleSubmit, hguard, hvalid, hfail]
  · simp [handleSubmit, hguard, hvalid, hfail]
  · simp [handleSubmit, hguard, hvalid, hfail]
  · simp [handleSubmit, hguard, hvalid, hfail]

/-- C8: a submit entered while the latch is up returns at once with the
state untouched and no network call; a submit entered with the latch down
always ends with the latch cleared; and no run of submit ever issues more
than one network call. -/
theorem c8_submit_latch (st : AppState) (env : SubmitEnv) :
    (st.isSubmitting = true →
      handleSubmit st env = { state := st, networkCalls := [], navigation := none }) ∧
    (st.isSubmitting = false → (handleSubmit st env).state.isSubmitting = false) ∧
    (handleSubmit st env).networkCalls.length ≤ 1 := by
  refine ⟨?_, ?_, ?_⟩
  · intro h
    simp [handleSubmit, h]
  · intro h
    unfold handleSubmit
    rw [h]
    simp only [Bool.false_eq_true, if_false]
    split
    · rfl
    · split
      · rfl
      · rfl
  · by_cases h : st.isSubmitting
    · simp [handleSubmit, h]
    · rcases hv : validateForm st.formData with msg | u
      · simp [handleSubmit, h, hv]
      · rcases henv : env.apiResult with _ | rt
        · simp [handleSubmit, h, hv, henv]
        · simp [handleSubmit, h, hv, henv]

/-- C6: file validation accepts exactly the files of at most 10 MB whose
extension is pdf, doc or docx; an oversize file is rejected with the size
message regardless of extension; every rejection sets an error and clears
the stored file; and the picker and drop paths run the same validation. -/
theorem c6_file_validation (st : AppState) (f : JSFile) :
    ((validateAndSetFile st f).uploadedFile = some f ↔
      (f.size ≤ 10 * 1024 * 1024 ∧ fileExt f.name ∈ (["pdf", "doc", "docx"] : List String))) ∧
    (f.size > 10 * 1024 * 1024 →
      (validateAndSetFile st f).error = some "File size must be less than 10MB" ∧
      (validateAndSetFile st f).uploadedFile = none) ∧
    (¬ (f.size ≤ 10 * 1024 * 1024 ∧ fileExt f.name ∈ (["pdf", "doc", "docx"] : List String)) →
      (validateAndSetFile st f).error ≠ none ∧
      (validateAndSetFile st f).uploadedFile = none) ∧
    handleFileChange st (some f) = validateAndSetFile st f ∧
    handleDrop st (some f) = validateAndSetFile { st with isDragging := false } f := by
  by_cases hsize : f.size > 10 * 1024 * 1024
  · refine ⟨?_, ?_, ?_, rfl, rfl⟩ <;>
      simp [validateAndSetFile, hsize]
  · by_cases hext : fileExt f.name ∈ (["pdf", "doc", "docx"] : List String)
    · refine ⟨?_, ?_, ?_, rfl, rfl⟩ <;>
        simp [validateAndSetFile, hsize, hext]
      omega
    · refine ⟨?_, ?_, ?_, rfl, rfl⟩ <;>
        simp [validateAndSetFile, hsize, hext]

/-- C9: an input-change event on field `f` stores the new value in exactly
that field, leaves every other field, the uploaded file and the latch
unchanged, and clears the error banner. -/
theorem c9_input_change (st : AppState) (f : FieldName) (v : String) :
    (handleInputChange st f v).error = none ∧
    (handleInputChange st f v).uploadedFile = st.uploadedFile ∧
    (handleInputChange st f v).isSubmitting = st.isSubmitting ∧
    getField (handleInputChange st f v).formData f = v ∧
    ∀ g : FieldName, g ≠ f →
      getField (handleInputChange st f v).formData g = getField st.formData g := by
  refine ⟨rfl, rfl, rfl, ?_, ?_⟩
  · cases f <;> rfl
  · intro g hg
    cases f <;> cases g <;> first
      | rfl
      | exact absurd rfl hg

theorem char_toLower_ne_dot (c : Char) (h : c ≠ Char.ofNat 46) :
    Char.toLower c ≠ Char.ofNat 46 := by
  have hdef : Char.toLower c =
      if c.toNat ≥ 65 ∧ c.toNat ≤ 90 then Char.ofNat (c.toNat + 32) else c := rfl
  rw [hdef]
  by_cases hrange : c.toNat ≥ 65 ∧ c.toNat ≤ 90
  · rw [if_pos hrange]
    obtain ⟨h1, h2⟩ := hrange
    revert h1 h2
    generalize c.toNat = n
    intro h1 h2
    interval_cases n <;> decide
  · rw [if_neg hrange]
    exact h

theorem splitOnChar_of_not_mem (sep : Char) (l : List Char) (h : sep ∉ l) :
    splitOnChar sep l = [l] := by
  induction l with
  | nil => rfl
  | cons c cs ih =>
    rw [List.mem_cons, not_or] at h
    obtain ⟨hc, hcs⟩ := h
    have hcne : ¬ c = sep := fun he => hc he.symm
    simp [splitOnChar, ih hcs, hcne]

/-- C10: the extension is the lowercased tail after the last dot, so
matching is case-insensitive (CV.PDF is accepted) and a dotless name is
its own extension after lowercasing, so a file literally named pdf is
accepted when within the size limit. -/
theorem c10_extension_lowercase (st : AppState) (name : String)
    (hnd : Char.ofNat 46 ∉ name.data) :
    fileExt name = String.mk (name.data.map Char.toLower) ∧
    (validateAndSetFile st { name := "CV.PDF", size := 100 }).uploadedFile =
      some { name := "CV.PDF", size := 100 } ∧
    (validateAndSetFile st { name := "pdf", size := 100 }).uploadedFile =
      some { name := "pdf", size := 100 } := by
  refine ⟨?_, ?_, ?_⟩
  case refine_2 =>
    have h1 : ¬ ((100 : Nat) > 10 * 1024 * 1024) := by norm_num
    have hext : fileExt "CV.PDF" ∈ (["pdf", "doc", "docx"] : List String) := by decide
    simp [validateAndSetFile, h1, hext]
  case refine_3 =>
    have h1 : ¬ ((100 : Nat) > 10 * 1024 * 1024) := by norm_num
    have hext : fileExt "pdf" ∈ (["pdf", "doc", "docx"] : List String) := by decide
    simp [validateAndSetFile, h1, hext]
  have hnd2 : Char.ofNat 46 ∉ name.data.map Char.toLower := by
    intro hmem
    rw [List.mem_map] at hmem
    obtain ⟨c, hc, hlow⟩ := hmem
    exact char_toLower_ne_dot c (fun he => hnd (he ▸ hc)) hlow
  rw [fileExt, splitOnChar_of_not_mem _ _ hnd2]
  rfl

/-- A fully filled form used to exercise the submit path. -/
def exampleFormData : FormData :=
  { firstName := "Jane", lastName := "Doe", email := "jane@example.com",
    over18 := "yes", dataEntryExperience := "no", experienceDescription := "",
    accessibility := "no", hoursPerWeek := "20", hasComputer := "yes",
    rightToWork := "yes", criminalConvictions := "no", dbsCheck := "yes",
    englishFluency := "fluent", otherLanguages := "",
    selfDescription := "organised" }

/-- The idle component state holding the filled example form. -/
def exampleState : AppState :=
  { formData := exampleFormData, isSubmitting := false, error := none,
    uploadedFile := none, isDragging := false }

/-- An environment whose remote call succeeds. -/
def exampleEnv : SubmitEnv :=
  { draw := 42, apiResult := ApiResult.success, parseMessage := fun _ => "" }

/-- An environment whose remote call fails with a non-empty body. -/
def exampleFailEnv : SubmitEnv :=
  { draw := 42, apiResult := ApiResult.failure (some "body"),
    parseMessage := fun _ => "parsed" }

/-- The example state with the required first name left empty. -/
def exampleMissingState : AppState :=
  { exampleState with formData := { exampleFormData with firstName := "" } }

/-- The example state with an email lacking the at sign. -/
def exampleBadEmailState : AppState :=
  { exampleState with formData := { exampleFormData with email := "janeexample.com" } }

/-- The example state with a submission already in flight. -/
def exampleBusyState : AppState :=
  { exampleState with isSubmitting := true }

/-- A file over the 10 MB limit despite an allowed extension. -/
def exampleBigFile : JSFile :=
  { name := "cv.pdf", size := 11 * 1024 * 1024 }

theorem c1_valid_submission_witness :
    (handleSubmit exampleState exampleEnv).navigation =
      some (submittedUrl "jane@example.com") :=
  (c1_valid_submission exampleState exampleEnv rfl rfl rfl).2.1

theorem c2_missing_required_witness :
    (handleSubmit exampleMissingState exampleEnv).state.error =
      some "Please fill in all required fields" :=
  (c2_missing_required exampleMissingState exampleEnv rfl (by decide) (by decide)).1

theorem c3_invalid_email_witness :
    (handleSubmit exampleBadEmailState exampleEnv).state.error =
      some "Please enter a valid email address" :=
  (c3_invalid_email exampleBadEmailState exampleEnv rfl (by decide)).1

theorem c6_file_validation_witness :
    (validateAndSetFile exampleState exampleBigFile).error =
      some "File size must be less than 10MB" ∧
    (validateAndSetFile exampleState exampleBigFile).uploadedFile = none :=
  (c6_file_validation exampleState exampleBigFile).2.1 (by decide)

theorem c7_remote_failure_witness :
    (handleSubmit exampleState exampleFailEnv).state.error = some "parsed" :=
  (c7_remote_failure exampleState exampleFailEnv (some "body") rfl rfl rfl).1
    "body" rfl (by decide)

theorem c8_submit_latch_witness :
    handleSubmit exampleBusyState exampleEnv =
      { state := exampleBusyState, networkCalls := [], navigation := none } :=
  (c8_submit_latch exampleBusyState exampleEnv).1 rfl

theorem c9_input_change_witness :
    getField (handleInputChange exampleState FieldName.firstName "Janet").formData
        FieldName.lastName =
      getField exampleState.formData FieldName.lastName :=
  (c9_input_change exampleState FieldName.firstName "Janet").2.2.2.2
    FieldName.lastName (by decide)

theorem c10_extension_lowercase_witness :
    fileExt "pdf" = String.mk ("pdf".data.map Char.toLower) :=
  (c10_extension_lowercase exampleState "pdf" (by decide)).1
